import Mathlib

/-!
Verification development for the CIB impact processor
(`Data Processing/processor.py`).  The Python source is shallowly embedded:
pandas data frames become lists of structures, machine floats become exact
rationals (`ℚ`), nullable (NaN) cells become `Option`, and the PostgreSQL
store becomes an explicit `DbState` record with each result table modelled
as an optional list (absent table = `none`).  Fallible operations return
`Except`/`Option`.
-/

set_option linter.all false

namespace CIB

/-! ### Decimal rounding (pandas `.round(n)`, round-half-to-even) -/

/-- Floor of a rational as an integer, via floor division of numerator by
denominator. -/
def ratFloorZ (q : ℚ) : ℤ :=
  q.num.fdiv q.den

/-- Round a rational to the nearest integer, ties to even (the rounding used
by numpy/pandas `.round`). -/
def roundHalfToEven (q : ℚ) : ℤ :=
  let f := ratFloorZ q
  let frac := q - (f : ℚ)
  if frac < 1/2 then f
  else if (1 : ℚ)/2 < frac then f + 1
  else if f % 2 = 0 then f else f + 1

/-- Model of pandas `Series.round(n)`: round to `n` decimal places. -/
def roundTo (n : ℕ) (q : ℚ) : ℚ :=
  (roundHalfToEven (q * (10 : ℚ) ^ n) : ℚ) / (10 : ℚ) ^ n

/-! ### Data model: the SOLRIS lookup CSV and the loaded lookup table -/

/-- One raw CSV row of the SOLRIS lookup source.  Every cell may be null
(`none` models a NaN cell in the data frame). -/
structure CsvRow where
  solris_code : Option ℤ
  solris_class : Option String
  biocapacity_category : Option String
  biocapacity_conversion_factor : Option ℚ
  lulc_category : Option String
  agc_tc_ha : Option ℚ
  bgc_tc_ha : Option ℚ
  soc_tc_ha : Option ℚ
  deoc_tc_ha : Option ℚ
  naturalness : Option ℚ
  description : Option String
  deriving DecidableEq

/-- One fully populated row of the `solris_lookup` table (all columns
non-null, as guaranteed by the loader's `dropna`). -/
structure LookupRow where
  solris_code : ℤ
  solris_class : String
  biocapacity_category : String
  biocapacity_conversion_factor : ℚ
  lulc_category : String
  agc_tc_ha : ℚ
  bgc_tc_ha : ℚ
  soc_tc_ha : ℚ
  deoc_tc_ha : ℚ
  naturalness : ℚ
  description : String
  deriving DecidableEq

/-- The dict key checked by the custom-factors override loop
(`if 'biocapacity_conversion_factor' in factors`). -/
def conversionFactorKey : String :=
  "biocapacity_conversion_factor"

/-- One entry of the `custom_factors` dict: a code together with its
`{field: value}` map (modelled as an association list). -/
def applyOverride (code : ℤ) (factors : List (String × ℚ)) (rows : List CsvRow) :
    List CsvRow :=
  match factors.lookup conversionFactorKey with
  | some v =>
      rows.map (fun r =>
        if r.solris_code = some code then
          { r with biocapacity_conversion_factor := some v }
        else r)
  | none => rows

/-- The `custom_factors` loop of `load_solris_lookup_table` (lines 188-193):
for each `(code, factors)` entry, patch `biocapacity_conversion_factor` on
the rows whose `solris_code` equals `code`, if that key is present. -/
def applyCustomFactors (rows : List CsvRow) (custom : List (ℤ × List (String × ℚ))) :
    List CsvRow :=
  custom.foldl (fun acc p => applyOverride p.1 p.2 acc) rows

/-- A CSV row survives `df.dropna()` iff every cell is non-null; in that
case it becomes a complete lookup row. -/
def csvComplete (r : CsvRow) : Option LookupRow :=
  match r.solris_code, r.solris_class, r.biocapacity_category,
        r.biocapacity_conversion_factor, r.lulc_category, r.agc_tc_ha,
        r.bgc_tc_ha, r.soc_tc_ha, r.deoc_tc_ha, r.naturalness, r.description with
  | some a, some b, some c, some d, some e, some f, some g, some h, some i,
    some j, some k => some ⟨a, b, c, d, e, f, g, h, i, j, k⟩
  | _, _, _, _, _, _, _, _, _, _, _ => none

/-- Model of `df.dropna()` (line 196): keep only rows with no null cell. -/
def dropnaRows (rows : List CsvRow) : List LookupRow :=
  rows.filterMap csvComplete

/-! ### The database state and the reload protocol -/

/-- A database-layer failure.  `fkViolation` stands for a DELETE rejected
because dependent rows still reference the deleted keys (the error whose
message contains a foreign-key phrase); `other` is any other failure,
carrying its message. -/
inductive DbError where
  | fkViolation
  | other (msg : String)
  deriving DecidableEq

/-- Prefix test on character lists. -/
def startsWithChars : List Char → List Char → Bool
  | _, [] => true
  | [], _ :: _ => false
  | a :: as, b :: bs => a == b && startsWithChars as bs

/-- Substring test on character lists. -/
def containsChars : List Char → List Char → Bool
  | [], needle => needle.isEmpty
  | a :: rest, needle => startsWithChars (a :: rest) needle || containsChars rest needle

/-- The error classification of lines 206-207 of the source: an exception is
treated as a foreign-key violation iff its lowercased message contains one of
the three phrases checked there. -/
def isFkError : DbError → Bool
  | .fkViolation => true
  | .other msg =>
      let m := msg.data.map Char.toLower
      let p1 := "violates foreign key constraint"
      let p2 := "still referenced"
      let p3 := "depends on"
      containsChars m p1.data || containsChars m p2.data || containsChars m p3.data

/-- The five persisted tables.  Each result table is `none` when it does not
exist; a dependent row is represented by its (nullable) `solris_code`
foreign-key column, the only column the reload protocol depends on. -/
structure DbState where
  solris_lookup : List LookupRow
  biocapacity_results : Option (List (Option ℤ))
  carbon_sequestration_results : Option (List (Option ℤ))
  water_filtration_results : Option (List (Option ℤ))
  aesthetic_quality_results : Option (List (Option ℤ))
  deriving DecidableEq

/-- All non-null foreign-key references held by the four result tables. -/
def dependentCodes (st : DbState) : List ℤ :=
  (st.biocapacity_results.getD []).filterMap id ++
  (st.carbon_sequestration_results.getD []).filterMap id ++
  (st.water_filtration_results.getD []).filterMap id ++
  (st.aesthetic_quality_results.getD []).filterMap id

/-- The statement `DELETE FROM solris_lookup` is rejected with a foreign-key violation iff
some dependent row references a row of the lookup table. -/
def fkBlocked (st : DbState) : Bool :=
  st.solris_lookup.any (fun r => (dependentCodes st).contains r.solris_code)

/-- One attempt at `DELETE FROM solris_lookup`.  `fault` injects an external
failure (connection loss etc.); otherwise the delete fails exactly when the
foreign-key constraint blocks it. -/
def clearLookup (fault : Option DbError) (st : DbState) : Except DbError DbState :=
  match fault with
  | some e => .error e
  | none =>
      if fkBlocked st then .error .fkViolation
      else .ok { st with solris_lookup := [] }

/-- The cascade of lines 211-223: `TRUNCATE` each of the four result tables,
independently; a table that does not exist raises, the exception is caught
and the table is left as it was (still absent). -/
def truncateDependents (st : DbState) : DbState :=
  { st with
    biocapacity_results := st.biocapacity_results.map (fun _ => []),
    carbon_sequestration_results := st.carbon_sequestration_results.map (fun _ => []),
    water_filtration_results := st.water_filtration_results.map (fun _ => []),
    aesthetic_quality_results := st.aesthetic_quality_results.map (fun _ => []) }

/-- The bulk insert of line 233 (`df.to_sql(..., if_exists='append')`):
append the filtered rows to the lookup table. -/
def loadInsert (df : List LookupRow) (st1 : DbState) : DbState :=
  { st1 with solris_lookup := st1.solris_lookup ++ df }

/-- The single corrective retry of lines 208-228: cascade-clear the
dependents, then attempt `DELETE FROM solris_lookup` one more time; a
failure of the retry propagates. -/
def retryClear (df : List LookupRow) (st : DbState) : Except DbError DbState :=
  match clearLookup none (truncateDependents st) with
  | .ok st1 => .ok (loadInsert df st1)
  | .error e2 => .error e2

/-- The exception handler of lines 200-230 followed by the bulk insert: on
a successful clear, insert; on a foreign-key-classified failure, take the
cascade-retry path; re-raise any other failure. -/
def loadAfterClear (df : List LookupRow) (st : DbState) :
    Except DbError DbState → Except DbError DbState
  | .ok st1 => .ok (loadInsert df st1)
  | .error e => if isFkError e then retryClear df st else .error e

/-- Model of `load_solris_lookup_table` (lines 165-243): apply overrides, drop null
rows, attempt the reference clear; on a foreign-key-classified failure,
cascade-clear the dependents and retry the clear exactly once; re-raise any
other failure; finally append the filtered rows into the (now empty) lookup
table. -/
def load_solris_lookup_table (rows : List CsvRow)
    (custom : List (ℤ × List (String × ℚ))) (fault : Option DbError)
    (st : DbState) : Except DbError DbState :=
  loadAfterClear (dropnaRows (applyCustomFactors rows custom)) st
    (clearLookup fault st)

/-! ### Shared calculator front end: aggregation and the code join -/

/-- Insert an integer into a sorted list (ascending). -/
def insertSorted (c : ℤ) : List ℤ → List ℤ
  | [] => [c]
  | x :: xs => if c ≤ x then c :: x :: xs else x :: insertSorted c xs

/-- Insertion sort on integers (for the sorted group keys produced by
`groupby`). -/
def sortInts (l : List ℤ) : List ℤ :=
  l.foldr insertSorted []

/-- First-occurrence deduplication of the code column, keeping codes not in
`seen`. -/
def dedupFirst (seen : List ℤ) : List ℤ → List ℤ
  | [] => []
  | c :: cs => if seen.contains c then dedupFirst seen cs else c :: dedupFirst (c :: seen) cs

/-- Model of `df.groupby("gridcode")["SUM_Area_Ha"].sum()`: one row per
distinct code (in ascending code order), carrying the summed area. -/
def aggregateAreas (rows : List (ℤ × ℚ)) : List (ℤ × ℚ) :=
  (sortInts (dedupFirst [] (rows.map Prod.fst))).map
    (fun c => (c, ((rows.filter (fun p => p.1 = c)).map Prod.snd).sum))

/-- The left-join lookup: the `solris_lookup` row for a code, if any (the
code column is the table's primary key). -/
def lookupByCode (tbl : List LookupRow) (c : ℤ) : Option LookupRow :=
  tbl.find? (fun r => r.solris_code == c)

/-! ### Biocapacity calculator (`process_biocapacity_data`, lines 247-280) -/

/-- One row of the biocapacity result set.  Cells that are NaN for unmatched
codes are `Option`s. -/
structure BioRow where
  gridcode : ℤ
  area_hectares : ℚ
  solris_class : Option String
  biocapacity_category : Option String
  biocapacity_conversion_factor : Option ℚ
  biocapacity_gha : Option ℚ
  percentage_of_total : Option ℚ
  deriving DecidableEq

/-- The merged frame after the left join: `(gridcode, area, lookup row?)`. -/
def bioMerged (tbl : List LookupRow) (src : List (ℤ × ℚ)) :
    List (ℤ × ℚ × Option LookupRow) :=
  (aggregateAreas src).map (fun p => (p.1, p.2, lookupByCode tbl p.1))

/-- Computes `biocapacity_gha = area_hectares * biocapacity_conversion_factor`
(NaN when the code is unmatched). -/
def bioGha (m : ℤ × ℚ × Option LookupRow) : Option ℚ :=
  m.2.2.map (fun e => m.2.1 * e.biocapacity_conversion_factor)

/-- Model of `merged["biocapacity_gha"].sum()` (pandas `sum` skips NaN cells). -/
def bioTotal (tbl : List LookupRow) (src : List (ℤ × ℚ)) : ℚ :=
  ((bioMerged tbl src).filterMap bioGha).sum

/-- The codes with no lookup entry (lines 268). -/
def bioMissingCodes (tbl : List LookupRow) (src : List (ℤ × ℚ)) : List ℤ :=
  ((bioMerged tbl src).filter (fun m => m.2.2.isNone)).map (fun m => m.1)

/-- Assemble one result row, given the set-wide total. -/
def mkBioRow (total : ℚ) (m : ℤ × ℚ × Option LookupRow) : BioRow :=
  { gridcode := m.1
    area_hectares := m.2.1
    solris_class := m.2.2.map (fun e => e.solris_class)
    biocapacity_category := m.2.2.map (fun e => e.biocapacity_category)
    biocapacity_conversion_factor := m.2.2.map (fun e => e.biocapacity_conversion_factor)
    biocapacity_gha := bioGha m
    percentage_of_total := (bioGha m).map (fun b => b / total * 100) }

/-- A calculator's result set together with the missing-code warnings it
logged (one `logger.warning` call per non-empty missing-code list). -/
structure BioOutput where
  rows : List BioRow
  missing_codes : List ℤ
  logged_warnings : List (List ℤ)
  deriving DecidableEq

/-- Model of `process_biocapacity_data`: aggregate, left-join on code, warn on
missing codes, compute `biocapacity_gha` and its percentage of the set-wide
total. -/
def process_biocapacity_data (tbl : List LookupRow) (src : List (ℤ × ℚ)) :
    BioOutput :=
  { rows := (bioMerged tbl src).map (mkBioRow (bioTotal tbl src))
    missing_codes := bioMissingCodes tbl src
    logged_warnings :=
      if (bioMissingCodes tbl src).isEmpty then [] else [bioMissingCodes tbl src] }

/-! ### Carbon calculator (`process_carbon_sequestration`, lines 282-323) -/

/-- One row of the carbon result set. -/
structure CarbonRow where
  gridcode : ℤ
  area_hectares : ℚ
  solris_class : Option String
  agc_tc_ha : Option ℚ
  bgc_tc_ha : Option ℚ
  soc_tc_ha : Option ℚ
  deoc_tc_ha : Option ℚ
  total_carbon_tc : ℚ
  ssc : ℚ
  percentage_of_total : ℚ
  deriving DecidableEq

/-- The merged frame after the left join, carbon variant. -/
def carbonMerged (tbl : List LookupRow) (src : List (ℤ × ℚ)) :
    List (ℤ × ℚ × Option LookupRow) :=
  (aggregateAreas src).map (fun p => (p.1, p.2, lookupByCode tbl p.1))

/-- Computes `total_carbon_tc = (agc.fillna(0) + bgc.fillna(0) + soc.fillna(0) +
deoc.fillna(0)) * area_hectares`. -/
def carbonTc (m : ℤ × ℚ × Option LookupRow) : ℚ :=
  ((m.2.2.map (fun e => e.agc_tc_ha)).getD 0 +
   (m.2.2.map (fun e => e.bgc_tc_ha)).getD 0 +
   (m.2.2.map (fun e => e.soc_tc_ha)).getD 0 +
   (m.2.2.map (fun e => e.deoc_tc_ha)).getD 0) * m.2.1

/-- Model of `merged["total_carbon_tc"].sum()`. -/
def carbonTotal (tbl : List LookupRow) (src : List (ℤ × ℚ)) : ℚ :=
  ((carbonMerged tbl src).map carbonTc).sum

/-- The codes with no lookup entry (line 306). -/
def carbonMissingCodes (tbl : List LookupRow) (src : List (ℤ × ℚ)) : List ℤ :=
  ((carbonMerged tbl src).filter (fun m => m.2.2.isNone)).map (fun m => m.1)

/-- Assemble one carbon result row, given the set-wide total. -/
def mkCarbonRow (total : ℚ) (m : ℤ × ℚ × Option LookupRow) : CarbonRow :=
  { gridcode := m.1
    area_hectares := m.2.1
    solris_class := m.2.2.map (fun e => e.solris_class)
    agc_tc_ha := m.2.2.map (fun e => e.agc_tc_ha)
    bgc_tc_ha := m.2.2.map (fun e => e.bgc_tc_ha)
    soc_tc_ha := m.2.2.map (fun e => e.soc_tc_ha)
    deoc_tc_ha := m.2.2.map (fun e => e.deoc_tc_ha)
    total_carbon_tc := carbonTc m
    ssc := carbonTc m * 252
    percentage_of_total := if total ≠ 0 then carbonTc m / total * 100 else 0 }

/-- The carbon result set plus the missing-code warnings. -/
structure CarbonOutput where
  rows : List CarbonRow
  missing_codes : List ℤ
  logged_warnings : List (List ℤ)
  deriving DecidableEq

/-- Model of `process_carbon_sequestration`: aggregate, left-join, warn on missing
codes, compute `total_carbon_tc`, `ssc = total_carbon_tc * 252`, and the
percentage of the set-wide total (0 when the total is 0). -/
def process_carbon_sequestration (tbl : List LookupRow) (src : List (ℤ × ℚ)) :
    CarbonOutput :=
  { rows := (carbonMerged tbl src).map (mkCarbonRow (carbonTotal tbl src))
    missing_codes := carbonMissingCodes tbl src
    logged_warnings :=
      if (carbonMissingCodes tbl src).isEmpty then []
      else [carbonMissingCodes tbl src] }

/-! ### Carbon persistence (`save_results_to_database`, carbon branch,
lines 436-452) -/

/-- One stored row of `carbon_sequestration_results` (the columns the claims
are about). -/
structure CarbonSavedRow where
  gridcode : ℤ
  area_hectares : ℚ
  total_carbon_tc : ℚ
  ssc : ℚ
  ssc_density : ℚ
  deriving DecidableEq

/-- The carbon branch of `save_results_to_database`: round the area to 4
decimals, store `ssc` in millions rounded to 4 decimals, and derive
`ssc_density = ssc / area_hectares` with `±inf`/NaN (the `area = 0` case)
replaced by 0, rounded to 6 decimals. -/
def saveCarbonRow (r : CarbonRow) : CarbonSavedRow :=
  let area := roundTo 4 r.area_hectares
  let sscStored := roundTo 4 (r.ssc / 1000000)
  let density := if area = 0 then 0 else roundTo 6 (sscStored / area)
  { gridcode := r.gridcode
    area_hectares := area
    total_carbon_tc := r.total_carbon_tc
    ssc := sscStored
    ssc_density := density }

/-- Row-wise persistence of a carbon result set. -/
def save_carbon_results (rows : List CarbonRow) : List CarbonSavedRow :=
  rows.map saveCarbonRow

/-! ### Water filtration calculator (`process_water_filtration`,
lines 325-368) -/

/-- One row of the water filtration result set. -/
structure WaterRow where
  gridcode : ℤ
  area_hectares : ℚ
  solris_class : Option String
  wf_value_per_ha : ℚ
  total_wf_value : ℚ
  percentage_of_total : ℚ
  deriving DecidableEq

/-- The merged frame after the code join, keeping only the class name. -/
def waterMerged (tbl : List LookupRow) (src : List (ℤ × ℚ)) :
    List (ℤ × ℚ × Option String) :=
  (aggregateAreas src).map
    (fun p => (p.1, p.2, (lookupByCode tbl p.1).map (fun e => e.solris_class)))

/-- The name-keyed join against the wetland-value table: a NaN class name
(unmatched code) matches nothing, as does a name absent from the table. -/
def wfLookupValue (wf : List (String × ℚ)) (cls : Option String) : Option ℚ :=
  cls.bind (fun n => (wf.find? (fun p => p.1 == n)).map (fun p => p.2))

/-- Value of `wf_value_per_ha` after `.fillna(0)` (line 358). -/
def waterValue (wf : List (String × ℚ)) (m : ℤ × ℚ × Option String) : ℚ :=
  (wfLookupValue wf m.2.2).getD 0

/-- Computes `total_wf_value = (area_hectares * wf_value_per_ha).round(4)`. -/
def waterTotalValue (wf : List (String × ℚ)) (m : ℤ × ℚ × Option String) : ℚ :=
  roundTo 4 (m.2.1 * waterValue wf m)

/-- Model of `merged["total_wf_value"].sum()`. -/
def waterTotal (tbl : List LookupRow) (wf : List (String × ℚ))
    (src : List (ℤ × ℚ)) : ℚ :=
  ((waterMerged tbl src).map (waterTotalValue wf)).sum

/-- Assemble one water result row, given the set-wide total. -/
def mkWaterRow (wf : List (String × ℚ)) (total : ℚ) (m : ℤ × ℚ × Option String) :
    WaterRow :=
  { gridcode := m.1
    area_hectares := m.2.1
    solris_class := m.2.2
    wf_value_per_ha := waterValue wf m
    total_wf_value := waterTotalValue wf m
    percentage_of_total := if total ≠ 0 then waterTotalValue wf m / total * 100 else 0 }

/-- The water result set; the calculator logs no warnings (no
`logger.warning` call in its body). -/
structure WaterOutput where
  rows : List WaterRow
  logged_warnings : List (List ℤ)
  deriving DecidableEq

/-- Model of `process_water_filtration`: aggregate, code join to class names, name
join to wetland values (silent 0 default), `total_wf_value` rounded to 4
decimals, percentage of the set-wide total (0 when the total is 0). -/
def process_water_filtration (tbl : List LookupRow) (wf : List (String × ℚ))
    (src : List (ℤ × ℚ)) : WaterOutput :=
  { rows := (waterMerged tbl src).map (mkWaterRow wf (waterTotal tbl wf src))
    logged_warnings := [] }

/-! ### Aesthetic quality calculator (`process_aesthetic_quality`,
lines 370-416) -/

/-- The rarity binning of lines 398-406: `pd.cut` with right-inclusive bins
`(-inf,1], (1,5], (5,15], (15,30], (30,inf)` labelled `5,4,3,2,1`. -/
def rarityScore (pct : ℚ) : ℤ :=
  if pct ≤ 1 then 5
  else if pct ≤ 5 then 4
  else if pct ≤ 15 then 3
  else if pct ≤ 30 then 2
  else 1

/-- One row of the aesthetic quality result set (unmatched codes are dropped
before any computation, so every cell is populated). -/
structure AestheticRow where
  gridcode : ℤ
  area_hectares : ℚ
  solris_class : String
  naturalness_score : ℚ
  percentage_of_total : ℚ
  rarity_score : ℤ
  aesthetic_quality_score : ℚ
  deriving DecidableEq

/-- The merged frame after `dropna(subset=['solris_class'])` (line 393):
only the codes present in the lookup table survive. -/
def aestheticMatched (tbl : List LookupRow) (src : List (ℤ × ℚ)) :
    List (ℤ × ℚ × LookupRow) :=
  (aggregateAreas src).filterMap
    (fun p => (lookupByCode tbl p.1).map (fun e => (p.1, p.2, e)))

/-- Model of `total_study_area` (line 396), summed over the surviving rows. -/
def aestheticTotalArea (tbl : List LookupRow) (src : List (ℤ × ℚ)) : ℚ :=
  ((aestheticMatched tbl src).map (fun m => m.2.1)).sum

/-- Assemble one aesthetic result row, given the total study area. -/
def mkAestheticRow (total : ℚ) (m : ℤ × ℚ × LookupRow) : AestheticRow :=
  let pct := m.2.1 / total * 100
  { gridcode := m.1
    area_hectares := m.2.1
    solris_class := m.2.2.solris_class
    naturalness_score := m.2.2.naturalness
    percentage_of_total := pct
    rarity_score := rarityScore pct
    aesthetic_quality_score :=
      m.2.2.naturalness * 0.67 + (rarityScore pct : ℚ) * 0.33 }

/-- Model of `process_aesthetic_quality`: aggregate, join on code, drop unmatched
codes, bin each row's share of the total study area into a rarity score, and
weight naturalness 0.67 / rarity 0.33. -/
def process_aesthetic_quality (tbl : List LookupRow) (src : List (ℤ × ℚ)) :
    List AestheticRow :=
  (aestheticMatched tbl src).map (mkAestheticRow (aestheticTotalArea tbl src))

/-! ### Cost projector (`plot_discounted_social_cost`, lines 697-743) -/

/-- The schedule's year keys (`scc_by_year.keys()`). -/
def sccKeys (sched : List (ℤ × ℚ)) : List ℤ :=
  sched.map Prod.fst

/-- Dict lookup in `scc_by_year` (built by `dict(zip(...))`, so a later
binding of the same year wins). -/
def sccGet (sched : List (ℤ × ℚ)) (y : ℤ) : Option ℚ :=
  (sched.reverse.find? (fun p => p.1 == y)).map (fun p => p.2)

/-- Python `max` over a list of years: `none` on the empty list (where the
source raises `ValueError`). -/
def maxKey : List ℤ → Option ℤ
  | [] => none
  | x :: xs =>
      match maxKey xs with
      | none => some x
      | some m => some (max x m)

/-- The per-year price lookup of lines 724-732: the exact year's schedule
price when present, otherwise the price of `max {y' ∈ keys | y' ≤ year}`
(undefined when that set is empty). -/
def annualSccValue (sched : List (ℤ × ℚ)) (y : ℤ) : Option ℚ :=
  if (sccKeys sched).contains y then sccGet sched y
  else
    match maxKey ((sccKeys sched).filter (fun k => decide (k ≤ y))) with
    | some last_year => sccGet sched last_year
    | none => none

/-- The requested inclusive year range `range(start_year, end_year + 1)`. -/
def yearRange (start finish : ℤ) : List ℤ :=
  (List.range (finish + 1 - start).toNat).map (fun i => start + i)

/-- The projection loop of lines 722-734: walk the years in order; for each,
look up the (possibly fallback) price, scale, and discount by
`(1 + rate) ^ (year - start_year)`; a failed lookup aborts the whole series
(the `ValueError` from `max([])` propagates). -/
def seriesFrom (scaling rate : ℚ) (start : ℤ) (sched : List (ℤ × ℚ)) :
    List ℤ → Option (List (ℤ × ℚ))
  | [] => some []
  | y :: ys =>
      match annualSccValue sched y with
      | none => none
      | some p =>
          match seriesFrom scaling rate start sched ys with
          | none => none
          | some rest =>
              some ((y, scaling * p / (1 + rate) ^ (y - start).toNat) :: rest)

/-- The series computed by `plot_discounted_social_cost`: scaling factor
`total_ssc_millions / 252`, one discounted value per year of the inclusive
range. -/
def plot_discounted_social_cost (total_ssc_millions : ℚ) (sched : List (ℤ × ℚ))
    (start finish : ℤ) (rate : ℚ) : Option (List (ℤ × ℚ)) :=
  seriesFrom (total_ssc_millions / 252) rate start sched (yearRange start finish)

/-- Modelled from the spec (§4.8): the price used for a requested year is
"the latest schedule year at or before the requested year" — the price bound
to `max {k ∈ keys | k ≤ y}` — and in particular the exact year's price when
the year is present.  This is the spec-side lookup the code's branchy lookup
is compared against. -/
def specLatestAtOrBeforePrice (sched : List (ℤ × ℚ)) (y : ℤ) : Option ℚ :=
  match maxKey ((sccKeys sched).filter (fun k => decide (k ≤ y))) with
  | some k => sccGet sched k
  | none => none

/-- The cells of a CSV row other than the conversion factor, bundled for
stating that overrides leave them untouched. -/
def nonFactorFields (r : CsvRow) :
    Option ℤ × Option String × Option String × Option String × Option ℚ ×
    Option ℚ × Option ℚ × Option ℚ × Option ℚ × Option String :=
  (r.solris_code, r.solris_class, r.biocapacity_category, r.lulc_category,
   r.agc_tc_ha, r.bgc_tc_ha, r.soc_tc_ha, r.deoc_tc_ha, r.naturalness,
   r.description)

/-! ### Concrete fixtures used by the witness theorems -/

/-- A two-row lookup table. -/
def tbl0 : List LookupRow :=
  [⟨1, "Deciduous Forest", "forest", 2, "natural", 1, 2, 3, 4, 9, "broadleaf stands"⟩,
   ⟨2, "Marsh", "wetland", 3, "natural", 0, 0, 1, 0, 8, "emergent wetland"⟩]

/-- An area source with a duplicate code (1) and a code with no lookup
entry (7). -/
def src0 : List (ℤ × ℚ) :=
  [(1, 10), (2, 30), (1, 5), (7, 1)]

/-- A wetland-value table knowing only the Marsh class. -/
def wf0 : List (String × ℚ) :=
  [("Marsh", 5)]

/-- A price schedule with a gap (2022 missing) starting at 2021. -/
def sched0 : List (ℤ × ℚ) :=
  [(2021, 252), (2023, 300)]

/-- Two CSV rows, the second with a null class cell. -/
def rows0 : List CsvRow :=
  [⟨some 1, some ("Deciduous Forest"), some ("forest"), some 2, some ("natural"),
    some 1, some 2, some 3, some 4, some 9, some ("broadleaf stands")⟩,
   ⟨some 2, none, some ("wetland"), some 3, some ("natural"),
    some 0, some 0, some 1, some 0, some 8, some ("emergent wetland")⟩]

/-- One override entry patching code 1's conversion factor. -/
def custom0 : List (ℤ × List (String × ℚ)) :=
  [(1, [(conversionFactorKey, 7)])]

/-- A database state whose biocapacity and aesthetic tables hold rows
referencing the lookup table, with the carbon table absent. -/
def st0 : DbState :=
  { solris_lookup := tbl0
    biocapacity_results := some [some 1, none]
    carbon_sequestration_results := none
    water_filtration_results := some []
    aesthetic_quality_results := some [some 2] }

/-- A failure that is not classified as a foreign-key violation. -/
def errConn : DbError :=
  .other ("could not connect to server: Connection refused")

/-- The first aesthetic result row of the fixture run. -/
def aestheticRow0 : AestheticRow :=
  (process_aesthetic_quality tbl0 src0).get ⟨0, by decide⟩

/-- The first carbon result row of the fixture run. -/
def carbonRow0 : CarbonRow :=
  (process_carbon_sequestration tbl0 src0).rows.get ⟨0, by decide⟩

/-- The first water result row of the fixture run (joined against an empty
wetland table). -/
def waterRow0 : WaterRow :=
  (process_water_filtration tbl0 [] src0).rows.get ⟨0, by decide⟩

/-! ### General helper lemmas -/

/-- Summing after scaling each element scales the sum. -/
theorem sum_map_div_mul (l : List ℚ) (t : ℚ) :
    (l.map (fun x => x / t * 100)).sum = l.sum / t * 100 := by
  induction l with
  | nil => simp
  | cons a l ih => simp [ih, add_div, add_mul]

/-- The function `ratFloorZ` fixes integers. -/
theorem ratFloorZ_intCast (z : ℤ) : ratFloorZ (z : ℚ) = z := by
  rw [ratFloorZ, Rat.num_intCast, Rat.den_intCast]
  simp

/-- The function `roundHalfToEven` fixes integers. -/
theorem roundHalfToEven_intCast (z : ℤ) : roundHalfToEven (z : ℚ) = z := by
  rw [roundHalfToEven]
  simp only [ratFloorZ_intCast, sub_self]
  norm_num

/-- The function `roundTo` fixes integer values. -/
theorem roundTo_intCast (n : ℕ) (z : ℤ) : roundTo n (z : ℚ) = (z : ℚ) := by
  have hz : ((z : ℚ) * (10 : ℚ) ^ n) = ((z * 10 ^ n : ℤ) : ℚ) := by push_cast; ring
  rw [roundTo, hz, roundHalfToEven_intCast]
  push_cast
  rw [mul_div_assoc, div_self (by positivity), mul_one]

/-- The function `roundTo` fixes zero. -/
theorem roundTo_zero (n : ℕ) : roundTo n 0 = 0 := by
  have := roundTo_intCast n 0
  simpa using this

/-- The function `maxKey` is `none` exactly on the empty list. -/
theorem maxKey_eq_none_iff (l : List ℤ) : maxKey l = none ↔ l = [] := by
  cases l with
  | nil => simp [maxKey]
  | cons x xs =>
      simp only [maxKey]
      cases maxKey xs <;> simp

/-- The maximum of a list is one of its elements. -/
theorem maxKey_mem : ∀ {l : List ℤ} {m : ℤ}, maxKey l = some m → m ∈ l := by
  intro l
  induction l with
  | nil => intro m h; simp [maxKey] at h
  | cons x xs ih =>
      intro m h
      simp only [maxKey] at h
      cases hx : maxKey xs with
      | none => rw [hx] at h; simp at h; simp [h]
      | some m' =>
          rw [hx] at h
          simp at h
          rcases max_choice x m' with hc | hc
          · rw [← h, hc]; exact List.mem_cons_self x xs
          · rw [← h, hc]; exact List.mem_cons_of_mem x (ih hx)

/-- Every element of a list is at most its maximum. -/
theorem le_maxKey : ∀ {l : List ℤ} {x m : ℤ}, x ∈ l → maxKey l = some m → x ≤ m := by
  intro l
  induction l with
  | nil => intro x m hx _; simp at hx
  | cons a xs ih =>
      intro x m hx h
      simp only [maxKey] at h
      cases hmx : maxKey xs with
      | none =>
          rw [hmx] at h
          simp at h
          have hxs : xs = [] := (maxKey_eq_none_iff xs).mp hmx
          subst hxs
          simp at hx
          omega
      | some m' =>
          rw [hmx] at h
          simp at h
          rcases List.mem_cons.mp hx with hc | hc
          · subst hc; rw [← h]; exact le_max_left x m'
          · calc x ≤ m' := ih hc hmx
                 _ ≤ max a m' := le_max_right a m'
                 _ = m := h

/-! ### Claim C1 -/

/-- C1: reference-table reload protocol.  When the reference clear is
blocked by a foreign-key violation (dependent result rows still reference
the lookup table), the loader cascade-clears each of the four dependent
result sets — each treated as independently possibly-absent (an absent set
stays absent, no error) — retries the reference clear once, and bulk-inserts
the filtered rows: the reload succeeds and every existing result table is
empty afterwards.  An injected failure not classified as a foreign-key
violation is re-raised unchanged, and one classified as a foreign-key
violation always takes the single cascade-retry path. -/
theorem claim_C1 :
    (∀ (rows : List CsvRow) (custom : List (ℤ × List (String × ℚ))) (st : DbState),
      fkBlocked st = true →
      ∃ st', load_solris_lookup_table rows custom none st = .ok st' ∧
        st'.solris_lookup = dropnaRows (applyCustomFactors rows custom) ∧
        st'.biocapacity_results = st.biocapacity_results.map (fun _ => []) ∧
        st'.carbon_sequestration_results = st.carbon_sequestration_results.map (fun _ => []) ∧
        st'.water_filtration_results = st.water_filtration_results.map (fun _ => []) ∧
        st'.aesthetic_quality_results = st.aesthetic_quality_results.map (fun _ => [])) ∧
    (∀ rows custom (st : DbState) (e : DbError), isFkError e = false →
      load_solris_lookup_table rows custom (some e) st = .error e) ∧
    (∀ rows custom (st : DbState) (e : DbError), isFkError e = true →
      ∃ st', load_solris_lookup_table rows custom (some e) st = .ok st' ∧
        st'.solris_lookup = dropnaRows (applyCustomFactors rows custom) ∧
        st'.biocapacity_results = st.biocapacity_results.map (fun _ => []) ∧
        st'.carbon_sequestration_results = st.carbon_sequestration_results.map (fun _ => []) ∧
        st'.water_filtration_results = st.water_filtration_results.map (fun _ => []) ∧
        st'.aesthetic_quality_results = st.aesthetic_quality_results.map (fun _ => [])) := by
  have hdep : ∀ st : DbState, dependentCodes (truncateDependents st) = [] := by
    intro st
    unfold dependentCodes truncateDependents
    cases st.biocapacity_results <;> cases st.carbon_sequestration_results <;>
      cases st.water_filtration_results <;> cases st.aesthetic_quality_results <;> simp
  have hnb : ∀ st : DbState, fkBlocked (truncateDependents st) = false := by
    intro st
    unfold fkBlocked
    rw [hdep]
    simp [List.any_eq_false]
  have hretry : ∀ (df : List LookupRow) (st : DbState),
      retryClear df st =
        .ok { solris_lookup := df
              biocapacity_results := st.biocapacity_results.map (fun _ => [])
              carbon_sequestration_results := st.carbon_sequestration_results.map (fun _ => [])
              water_filtration_results := st.water_filtration_results.map (fun _ => [])
              aesthetic_quality_results := st.aesthetic_quality_results.map (fun _ => []) } := by
    intro df st
    have hcl : clearLookup none (truncateDependents st) =
        .ok { truncateDependents st with solris_lookup := [] } := by
      unfold clearLookup
      rw [hnb]
      simp
    unfold retryClear
    rw [hcl]
    rfl
  refine ⟨?_, ?_, ?_⟩
  · intro rows custom st hblk
    have hcl : clearLookup none st = .error .fkViolation := by
      unfold clearLookup
      rw [hblk]
      simp
    refine ⟨{ solris_lookup := dropnaRows (applyCustomFactors rows custom)
              biocapacity_results := st.biocapacity_results.map (fun _ => [])
              carbon_sequestration_results := st.carbon_sequestration_results.map (fun _ => [])
              water_filtration_results := st.water_filtration_results.map (fun _ => [])
              aesthetic_quality_results := st.aesthetic_quality_results.map (fun _ => []) },
            ?_, rfl, rfl, rfl, rfl, rfl⟩
    show load_solris_lookup_table rows custom none st = _
    unfold load_solris_lookup_table
    rw [hcl]
    show (if isFkError .fkViolation then retryClear (dropnaRows (applyCustomFactors rows custom)) st
          else Except.error DbError.fkViolation) = _
    rw [if_pos (by rfl)]
    exact hretry _ st
  · intro rows custom st e hfk
    unfold load_solris_lookup_table
    show (if isFkError e then retryClear _ st else Except.error e) = _
    rw [hfk]
    simp
  · intro rows custom st e hfk
    refine ⟨{ solris_lookup := dropnaRows (applyCustomFactors rows custom)
              biocapacity_results := st.biocapacity_results.map (fun _ => [])
              carbon_sequestration_results := st.carbon_sequestration_results.map (fun _ => [])
              water_filtration_results := st.water_filtration_results.map (fun _ => [])
              aesthetic_quality_results := st.aesthetic_quality_results.map (fun _ => []) },
            ?_, rfl, rfl, rfl, rfl, rfl⟩
    show load_solris_lookup_table rows custom (some e) st = _
    unfold load_solris_lookup_table
    show (if isFkError e then retryClear _ st else Except.error e) = _
    rw [hfk, if_pos (by rfl)]
    exact hretry _ st

/-- C1 witness: a concrete blocked state (dependent rows referencing codes
1 and 2, one absent table) reloads successfully with every existing result
table emptied, and a concrete connection failure is re-raised. -/
theorem claim_C1_witness :
    fkBlocked st0 = true ∧
    isFkError errConn = false ∧
    (∃ st', load_solris_lookup_table rows0 custom0 none st0 = .ok st' ∧
      st'.solris_lookup = dropnaRows (applyCustomFactors rows0 custom0) ∧
      st'.biocapacity_results = st0.biocapacity_results.map (fun _ => []) ∧
      st'.carbon_sequestration_results = st0.carbon_sequestration_results.map (fun _ => []) ∧
      st'.water_filtration_results = st0.water_filtration_results.map (fun _ => []) ∧
      st'.aesthetic_quality_results = st0.aesthetic_quality_results.map (fun _ => [])) ∧
    load_solris_lookup_table rows0 custom0 (some errConn) st0 = .error errConn :=
  ⟨by decide, by decide, claim_C1.1 rows0 custom0 st0 (by decide),
   claim_C1.2.1 rows0 custom0 st0 errConn (by decide)⟩

/-! ### Claim C10 -/

/-- An override never changes any cell other than the conversion factor. -/
theorem applyOverride_map_nonFactor (code : ℤ) (factors : List (String × ℚ))
    (rows : List CsvRow) :
    (applyOverride code factors rows).map nonFactorFields = rows.map nonFactorFields := by
  unfold applyOverride
  cases factors.lookup conversionFactorKey with
  | none => rfl
  | some v =>
      rw [List.map_map]
      apply List.map_congr_left
      intro r hr
      by_cases h : r.solris_code = some code
      · simp [Function.comp, h, nonFactorFields]
      · simp [Function.comp, h]

/-- The whole override map never changes any cell other than the conversion
factor. -/
theorem applyCustomFactors_map_nonFactor :
    ∀ (custom : List (ℤ × List (String × ℚ))) (rows : List CsvRow),
    (applyCustomFactors rows custom).map nonFactorFields = rows.map nonFactorFields := by
  intro custom
  induction custom with
  | nil => intro rows; rfl
  | cons p rest ih =>
      intro rows
      show (applyCustomFactors (applyOverride p.1 p.2 rows) rest).map nonFactorFields = _
      rw [ih, applyOverride_map_nonFactor]

/-- An override entry without the conversion-factor key changes nothing. -/
theorem applyOverride_of_no_key (code : ℤ) (factors : List (String × ℚ))
    (rows : List CsvRow) (h : factors.lookup conversionFactorKey = none) :
    applyOverride code factors rows = rows := by
  unfold applyOverride
  rw [h]

/-- An override keyed by a code no row carries changes nothing. -/
theorem applyOverride_of_absent_code (code : ℤ) (factors : List (String × ℚ))
    (rows : List CsvRow) (h : ∀ r ∈ rows, r.solris_code ≠ some code) :
    applyOverride code factors rows = rows := by
  unfold applyOverride
  cases factors.lookup conversionFactorKey with
  | none => rfl
  | some v =>
      conv_rhs => rw [← List.map_id rows]
      apply List.map_congr_left
      intro r hr
      simp [h r hr]

/-- C10: the loader's override map only ever patches the
`biocapacity_conversion_factor` cell: every other cell of every row is
unchanged by the whole override map; an entry whose field map lacks that key
is silently ignored; and an entry keyed by a code not present in the source
rows changes nothing (both for a single entry and as a step of the override
loop). -/
theorem claim_C10 :
    (∀ (rows : List CsvRow) (custom : List (ℤ × List (String × ℚ))),
      (applyCustomFactors rows custom).map nonFactorFields = rows.map nonFactorFields) ∧
    (∀ (rows : List CsvRow) (code : ℤ) (factors : List (String × ℚ)),
      factors.lookup conversionFactorKey = none →
      applyOverride code factors rows = rows) ∧
    (∀ (rows : List CsvRow) (code : ℤ) (factors : List (String × ℚ)),
      (∀ r ∈ rows, r.solris_code ≠ some code) →
      applyOverride code factors rows = rows) ∧
    (∀ (rows : List CsvRow) (code : ℤ) (factors : List (String × ℚ))
        (rest : List (ℤ × List (String × ℚ))),
      (∀ r ∈ rows, r.solris_code ≠ some code) →
      applyCustomFactors rows ((code, factors) :: rest) = applyCustomFactors rows rest) := by
  refine ⟨fun rows custom => applyCustomFactors_map_nonFactor custom rows,
          fun rows code factors h => applyOverride_of_no_key code factors rows h,
          fun rows code factors h => applyOverride_of_absent_code code factors rows h,
          fun rows code factors rest h => ?_⟩
  show applyCustomFactors (applyOverride code factors rows) rest = _
  rw [applyOverride_of_absent_code code factors rows h]

/-- C10 witness: concrete override maps — the fixture map leaves non-factor
cells untouched, a map with an unrelated field key is ignored, and a map
keyed by absent code 42 changes nothing. -/
theorem claim_C10_witness :
    (applyCustomFactors rows0 custom0).map nonFactorFields = rows0.map nonFactorFields ∧
    applyOverride 1 [(("unrelated_field" : String), 9)] rows0 = rows0 ∧
    applyOverride 42 [(conversionFactorKey, 9)] rows0 = rows0 ∧
    applyCustomFactors rows0 [(42, [(conversionFactorKey, 9)])] = applyCustomFactors rows0 [] :=
  ⟨claim_C10.1 rows0 custom0,
   claim_C10.2.1 rows0 1 _ (by decide),
   claim_C10.2.2.1 rows0 42 _ (by decide),
   claim_C10.2.2.2 rows0 42 _ [] (by decide)⟩

/-! ### Claim C2 -/

/-- C2: aesthetic rarity binning and scoring.  Every result row's
percentage-of-total is its area divided by the aggregate area of the run
(the sum over the result set) times 100, its rarity score is the
right-inclusive binning of that percentage, and its final score is
`naturalness × 0.67 + rarity × 0.33`; the binning satisfies the five
threshold clauses and the four boundary cases of the claim. -/
theorem claim_C2 :
    (∀ (tbl : List LookupRow) (src : List (ℤ × ℚ)) (i : ℕ)
        (hi : i < (process_aesthetic_quality tbl src).length),
      ((process_aesthetic_quality tbl src).get ⟨i, hi⟩).percentage_of_total =
        ((process_aesthetic_quality tbl src).get ⟨i, hi⟩).area_hectares /
          (((process_aesthetic_quality tbl src).map (fun r => r.area_hectares)).sum) * 100 ∧
      ((process_aesthetic_quality tbl src).get ⟨i, hi⟩).rarity_score =
        rarityScore (((process_aesthetic_quality tbl src).get ⟨i, hi⟩).percentage_of_total) ∧
      ((process_aesthetic_quality tbl src).get ⟨i, hi⟩).aesthetic_quality_score =
        ((process_aesthetic_quality tbl src).get ⟨i, hi⟩).naturalness_score * 0.67 +
        (((process_aesthetic_quality tbl src).get ⟨i, hi⟩).rarity_score : ℚ) * 0.33) ∧
    (∀ pct : ℚ,
      (pct ≤ 1 → rarityScore pct = 5) ∧
      (1 < pct → pct ≤ 5 → rarityScore pct = 4) ∧
      (5 < pct → pct ≤ 15 → rarityScore pct = 3) ∧
      (15 < pct → pct ≤ 30 → rarityScore pct = 2) ∧
      (30 < pct → rarityScore pct = 1)) ∧
    rarityScore 1 = 5 ∧ rarityScore 1.0001 = 4 ∧
    rarityScore 30 = 2 ∧ rarityScore 30.0001 = 1 := by
  refine ⟨?_, ?_, ?_, ?_, ?_, ?_⟩
  · intro tbl src i hi
    have hm : i < (aestheticMatched tbl src).length := by
      simpa [process_aesthetic_quality] using hi
    have hget : (process_aesthetic_quality tbl src).get ⟨i, hi⟩ =
        mkAestheticRow (aestheticTotalArea tbl src)
          ((aestheticMatched tbl src).get ⟨i, hm⟩) := by
      simp [process_aesthetic_quality, List.get_eq_getElem, List.getElem_map]
    have harea : ((process_aesthetic_quality tbl src).map (fun r => r.area_hectares)).sum =
        aestheticTotalArea tbl src := by
      rw [process_aesthetic_quality, List.map_map]
      rfl
    refine ⟨?_, ?_, ?_⟩
    · rw [hget, harea]
      rfl
    · rw [hget]
      rfl
    · rw [hget]
      rfl
  · intro pct
    refine ⟨?_, ?_, ?_, ?_, ?_⟩
    · intro h
      simp [rarityScore, h]
    · intro h1 h2
      simp [rarityScore, not_le.mpr h1, h2]
    · intro h1 h2
      simp [rarityScore, not_le.mpr (by linarith : (1:ℚ) < pct), not_le.mpr h1, h2]
    · intro h1 h2
      simp [rarityScore, not_le.mpr (by linarith : (1:ℚ) < pct),
        not_le.mpr (by linarith : (5:ℚ) < pct), not_le.mpr h1, h2]
    · intro h
      simp [rarityScore, not_le.mpr (by linarith : (1:ℚ) < pct),
        not_le.mpr (by linarith : (5:ℚ) < pct), not_le.mpr (by linarith : (15:ℚ) < pct),
        not_le.mpr h]
  · norm_num [rarityScore]
  · norm_num [rarityScore]
  · norm_num [rarityScore]
  · norm_num [rarityScore]

/-! ### Claim C3 -/

/-- C3: carbon formulas.  Every carbon result row satisfies
`total_carbon_tc = (agc + bgc + soc + deoc) × area` with missing components
read as 0 (so the total is always defined); the stored `ssc` is
`total_carbon × 252 / 1e6` rounded to 4 decimals; and the stored
`ssc_density` is the stored `ssc` divided by the stored area rounded to 6
decimals, with the degenerate `area = 0` case mapped to 0. -/
theorem claim_C3 :
    ∀ (tbl : List LookupRow) (src : List (ℤ × ℚ)) (i : ℕ)
      (hi : i < (process_carbon_sequestration tbl src).rows.length)
      (r : CarbonRow), r = (process_carbon_sequestration tbl src).rows.get ⟨i, hi⟩ →
      r.total_carbon_tc =
        (r.agc_tc_ha.getD 0 + r.bgc_tc_ha.getD 0 + r.soc_tc_ha.getD 0 +
         r.deoc_tc_ha.getD 0) * r.area_hectares ∧
      (saveCarbonRow r).ssc = roundTo 4 (r.total_carbon_tc * 252 / 1000000) ∧
      ((saveCarbonRow r).area_hectares = 0 → (saveCarbonRow r).ssc_density = 0) ∧
      ((saveCarbonRow r).area_hectares ≠ 0 →
        (saveCarbonRow r).ssc_density =
          roundTo 6 ((saveCarbonRow r).ssc / (saveCarbonRow r).area_hectares)) := by
  intro tbl src i hi r hr
  have hm : i < (carbonMerged tbl src).length := by
    simpa [process_carbon_sequestration] using hi
  have hget : (process_carbon_sequestration tbl src).rows.get ⟨i, hi⟩ =
      mkCarbonRow (carbonTotal tbl src) ((carbonMerged tbl src).get ⟨i, hm⟩) := by
    simp [process_carbon_sequestration, List.get_eq_getElem, List.getElem_map]
  subst hr
  rw [hget]
  refine ⟨rfl, rfl, ?_, ?_⟩
  · intro h
    simp only [saveCarbonRow] at h ⊢
    rw [if_pos h]
  · intro h
    simp only [saveCarbonRow] at h ⊢
    rw [if_neg h]

/-- C2 witness: the first fixture row satisfies the binning and weighting
equations, and the binning evaluates as claimed at 7, 1 and 1.0001. -/
theorem claim_C2_witness :
    aestheticRow0.rarity_score = rarityScore aestheticRow0.percentage_of_total ∧
    aestheticRow0.aesthetic_quality_score =
      aestheticRow0.naturalness_score * 0.67 + (aestheticRow0.rarity_score : ℚ) * 0.33 ∧
    rarityScore 7 = 3 ∧ rarityScore 1 = 5 ∧ rarityScore 1.0001 = 4 :=
  ⟨(claim_C2.1 tbl0 src0 0 (by decide)).2.1,
   (claim_C2.1 tbl0 src0 0 (by decide)).2.2,
   (claim_C2.2.1 7).2.2.1 (by norm_num) (by norm_num),
   claim_C2.2.2.1, claim_C2.2.2.2.1⟩

/-- C3 witness: the carbon formulas instantiated at the first fixture row. -/
theorem claim_C3_witness :
    carbonRow0.total_carbon_tc =
      (carbonRow0.agc_tc_ha.getD 0 + carbonRow0.bgc_tc_ha.getD 0 +
       carbonRow0.soc_tc_ha.getD 0 + carbonRow0.deoc_tc_ha.getD 0) *
        carbonRow0.area_hectares ∧
    (saveCarbonRow carbonRow0).ssc =
      roundTo 4 (carbonRow0.total_carbon_tc * 252 / 1000000) ∧
    ((saveCarbonRow carbonRow0).area_hectares = 0 →
      (saveCarbonRow carbonRow0).ssc_density = 0) ∧
    ((saveCarbonRow carbonRow0).area_hectares ≠ 0 →
      (saveCarbonRow carbonRow0).ssc_density =
        roundTo 6 ((saveCarbonRow carbonRow0).ssc / (saveCarbonRow carbonRow0).area_hectares)) :=
  claim_C3 tbl0 src0 0 (by decide) carbonRow0 rfl

/-! ### Claim C4 -/

/-- C4: in every non-degenerate result set (set-wide total metric nonzero),
the per-row percentage-of-total values sum to 100 within 1e-6, for the
Biocapacity, Carbon and Water calculators independently (for biocapacity
the sum is over the defined percentages, as pandas `sum` skips NaN). -/
theorem claim_C4 :
    ∀ (tbl : List LookupRow) (wf : List (String × ℚ)) (src : List (ℤ × ℚ)),
      (bioTotal tbl src ≠ 0 →
        |(((process_biocapacity_data tbl src).rows.filterMap
            (fun r => r.percentage_of_total)).sum) - 100| ≤ 1/1000000) ∧
      (carbonTotal tbl src ≠ 0 →
        |(((process_carbon_sequestration tbl src).rows.map
            (fun r => r.percentage_of_total)).sum) - 100| ≤ 1/1000000) ∧
      (waterTotal tbl wf src ≠ 0 →
        |(((process_water_filtration tbl wf src).rows.map
            (fun r => r.percentage_of_total)).sum) - 100| ≤ 1/1000000) := by
  intro tbl wf src
  refine ⟨?_, ?_, ?_⟩
  · intro h
    have h1 : (process_biocapacity_data tbl src).rows.filterMap
          (fun r => r.percentage_of_total) =
        ((bioMerged tbl src).filterMap bioGha).map
          (fun b => b / bioTotal tbl src * 100) := by
      show ((bioMerged tbl src).map (mkBioRow (bioTotal tbl src))).filterMap
          (fun r => r.percentage_of_total) = _
      rw [List.filterMap_map, List.map_filterMap]
      rfl
    have h2 : ((bioMerged tbl src).filterMap bioGha).sum = bioTotal tbl src := rfl
    rw [h1, sum_map_div_mul, h2, div_self h, one_mul]
    norm_num
  · intro h
    have h1 : (process_carbon_sequestration tbl src).rows.map
          (fun r => r.percentage_of_total) =
        ((carbonMerged tbl src).map carbonTc).map
          (fun x => x / carbonTotal tbl src * 100) := by
      show ((carbonMerged tbl src).map (mkCarbonRow (carbonTotal tbl src))).map
          (fun r => r.percentage_of_total) = _
      rw [List.map_map, List.map_map]
      apply List.map_congr_left
      intro m _
      simp [Function.comp, mkCarbonRow, h]
    have h2 : ((carbonMerged tbl src).map carbonTc).sum = carbonTotal tbl src := rfl
    rw [h1, sum_map_div_mul, h2, div_self h, one_mul]
    norm_num
  · intro h
    have h1 : (process_water_filtration tbl wf src).rows.map
          (fun r => r.percentage_of_total) =
        ((waterMerged tbl src).map (waterTotalValue wf)).map
          (fun x => x / waterTotal tbl wf src * 100) := by
      show ((waterMerged tbl src).map (mkWaterRow wf (waterTotal tbl wf src))).map
          (fun r => r.percentage_of_total) = _
      rw [List.map_map, List.map_map]
      apply List.map_congr_left
      intro m _
      simp [Function.comp, mkWaterRow, h]
    have h2 : ((waterMerged tbl src).map (waterTotalValue wf)).sum =
        waterTotal tbl wf src := rfl
    rw [h1, sum_map_div_mul, h2, div_self h, one_mul]
    norm_num

/-- C4 witness: on the fixture run the three set-wide totals are 120, 180
and 150 (all nonzero), and each calculator's percentages sum to 100 within
1e-6. -/
theorem claim_C4_witness :
    bioTotal tbl0 src0 ≠ 0 ∧ carbonTotal tbl0 src0 ≠ 0 ∧
    waterTotal tbl0 wf0 src0 ≠ 0 ∧
    |(((process_biocapacity_data tbl0 src0).rows.filterMap
        (fun r => r.percentage_of_total)).sum) - 100| ≤ 1/1000000 ∧
    |(((process_carbon_sequestration tbl0 src0).rows.map
        (fun r => r.percentage_of_total)).sum) - 100| ≤ 1/1000000 ∧
    |(((process_water_filtration tbl0 wf0 src0).rows.map
        (fun r => r.percentage_of_total)).sum) - 100| ≤ 1/1000000 := by
  have hb : bioTotal tbl0 src0 = 120 := by
    norm_num [bioTotal, bioMerged, aggregateAreas, dedupFirst, sortInts, insertSorted,
      lookupByCode, bioGha, tbl0, src0, List.filterMap_cons]
  have hc : carbonTotal tbl0 src0 = 180 := by
    norm_num [carbonTotal, carbonMerged, aggregateAreas, dedupFirst, sortInts,
      insertSorted, lookupByCode, carbonTc, tbl0, src0]
  have hw : waterTotal tbl0 wf0 src0 = 150 := by
    simp +decide [waterTotal, waterMerged, aggregateAreas, dedupFirst, sortInts,
      insertSorted, lookupByCode, waterTotalValue, waterValue, wfLookupValue,
      tbl0, src0, wf0]
    norm_num [roundTo, roundHalfToEven, ratFloorZ]
  have hb' : bioTotal tbl0 src0 ≠ 0 := by rw [hb]; norm_num
  have hc' : carbonTotal tbl0 src0 ≠ 0 := by rw [hc]; norm_num
  have hw' : waterTotal tbl0 wf0 src0 ≠ 0 := by rw [hw]; norm_num
  exact ⟨hb', hc', hw', (claim_C4 tbl0 wf0 src0).1 hb',
    (claim_C4 tbl0 wf0 src0).2.1 hc', (claim_C4 tbl0 wf0 src0).2.2 hw'⟩

/-! ### Claim C6 -/

/-- C6: water filtration row behaviour.  A row whose class name is null
(unmatched code) or absent from the wetland-value table gets per-hectare
value 0, with no exception and no warning (the calculator logs none);
every row satisfies `total_wf_value = round(area × value_per_ha, 4)`; and
when the set-wide total is 0 every row's percentage-of-total is 0. -/
theorem claim_C6 :
    ∀ (tbl : List LookupRow) (wf : List (String × ℚ)) (src : List (ℤ × ℚ)) (i : ℕ)
      (hi : i < (process_water_filtration tbl wf src).rows.length)
      (r : WaterRow), r = (process_water_filtration tbl wf src).rows.get ⟨i, hi⟩ →
      (r.solris_class = none → r.wf_value_per_ha = 0) ∧
      (∀ cls : String, r.solris_class = some cls →
        wf.find? (fun p => p.1 == cls) = none → r.wf_value_per_ha = 0) ∧
      r.total_wf_value = roundTo 4 (r.area_hectares * r.wf_value_per_ha) ∧
      (waterTotal tbl wf src = 0 → r.percentage_of_total = 0) ∧
      (process_water_filtration tbl wf src).logged_warnings = [] := by
  intro tbl wf src i hi r hr
  have hm : i < (waterMerged tbl src).length := by
    simpa [process_water_filtration] using hi
  have hget : (process_water_filtration tbl wf src).rows.get ⟨i, hi⟩ =
      mkWaterRow wf (waterTotal tbl wf src) ((waterMerged tbl src).get ⟨i, hm⟩) := by
    simp [process_water_filtration, List.get_eq_getElem, List.getElem_map]
  subst hr
  rw [hget]
  refine ⟨?_, ?_, rfl, ?_, rfl⟩
  · intro h
    replace h : ((waterMerged tbl src).get ⟨i, hm⟩).2.2 = none := h
    show waterValue wf ((waterMerged tbl src).get ⟨i, hm⟩) = 0
    simp only [waterValue, wfLookupValue]
    rw [h]
    rfl
  · intro cls hcls hfind
    replace hcls : ((waterMerged tbl src).get ⟨i, hm⟩).2.2 = some cls := hcls
    show waterValue wf ((waterMerged tbl src).get ⟨i, hm⟩) = 0
    simp only [waterValue, wfLookupValue]
    rw [hcls]
    simp [hfind]
  · intro h
    show (if waterTotal tbl wf src ≠ 0 then
        waterTotalValue wf ((waterMerged tbl src).get ⟨i, hm⟩) / waterTotal tbl wf src * 100
      else 0) = 0
    rw [if_neg (not_not_intro h)]

/-- C6 witness: on the fixture run against an empty wetland table, the
first row's class (Deciduous Forest) is absent from the table, its value
defaults to 0, the rounding identity holds, the set-wide total is 0 and so
is the row's percentage, and no warning is logged. -/
theorem claim_C6_witness :
    waterRow0.solris_class = some ("Deciduous Forest") ∧
    ([] : List (String × ℚ)).find? (fun p => p.1 == "Deciduous Forest") = none ∧
    waterRow0.wf_value_per_ha = 0 ∧
    waterRow0.total_wf_value = roundTo 4 (waterRow0.area_hectares * waterRow0.wf_value_per_ha) ∧
    waterTotal tbl0 [] src0 = 0 ∧
    waterRow0.percentage_of_total = 0 ∧
    (process_water_filtration tbl0 [] src0).logged_warnings = [] := by
  have h := claim_C6 tbl0 [] src0 0 (by decide) waterRow0 rfl
  have hcls : waterRow0.solris_class = some ("Deciduous Forest") := by decide
  have htot : waterTotal tbl0 [] src0 = 0 := by
    simp +decide [waterTotal, waterMerged, aggregateAreas, dedupFirst, sortInts,
      insertSorted, lookupByCode, waterTotalValue, waterValue, wfLookupValue,
      tbl0, src0, roundTo_zero]
  exact ⟨hcls, rfl, h.2.1 _ hcls rfl, h.2.2.1, htot, h.2.2.2.1 htot, h.2.2.2.2⟩

/-! ### Claim C7 -/

/-- C7: missing-reference policy divergence.  For a code present in the
aggregated input but absent from the lookup table, the Biocapacity and
Carbon calculators keep the row — its lookup-derived cells are all null
(for biocapacity this includes the derived `biocapacity_gha` and
percentage) — and log a warning carrying the missing-code list, while the
Aesthetic calculator drops the row from its result set entirely. -/
theorem claim_C7 :
    ∀ (tbl : List LookupRow) (src : List (ℤ × ℚ)) (c : ℤ),
      c ∈ (aggregateAreas src).map Prod.fst → lookupByCode tbl c = none →
      (∃ r ∈ (process_biocapacity_data tbl src).rows, r.gridcode = c ∧
        r.solris_class = none ∧ r.biocapacity_conversion_factor = none ∧
        r.biocapacity_gha = none ∧ r.percentage_of_total = none) ∧
      c ∈ (process_biocapacity_data tbl src).missing_codes ∧
      (process_biocapacity_data tbl src).logged_warnings =
        [(process_biocapacity_data tbl src).missing_codes] ∧
      (∃ r ∈ (process_carbon_sequestration tbl src).rows, r.gridcode = c ∧
        r.solris_class = none ∧ r.agc_tc_ha = none ∧ r.bgc_tc_ha = none ∧
        r.soc_tc_ha = none ∧ r.deoc_tc_ha = none) ∧
      c ∈ (process_carbon_sequestration tbl src).missing_codes ∧
      (process_carbon_sequestration tbl src).logged_warnings =
        [(process_carbon_sequestration tbl src).missing_codes] ∧
      (∀ r ∈ process_aesthetic_quality tbl src, r.gridcode ≠ c) := by
  intro tbl src c hc hnone
  obtain ⟨p, hp, hpc⟩ := List.mem_map.mp hc
  have h1 : lookupByCode tbl p.1 = none := by rw [hpc]; exact hnone
  have hbm : (p.1, p.2, lookupByCode tbl p.1) ∈ bioMerged tbl src :=
    List.mem_map_of_mem _ hp
  rw [h1] at hbm
  have hcm : (p.1, p.2, lookupByCode tbl p.1) ∈ carbonMerged tbl src :=
    List.mem_map_of_mem _ hp
  rw [h1] at hcm
  have hbf : (p.1, p.2, (none : Option LookupRow)) ∈
      (bioMerged tbl src).filter (fun m => m.2.2.isNone) :=
    List.mem_filter.mpr ⟨hbm, rfl⟩
  have hcf : (p.1, p.2, (none : Option LookupRow)) ∈
      (carbonMerged tbl src).filter (fun m => m.2.2.isNone) :=
    List.mem_filter.mpr ⟨hcm, rfl⟩
  have hbmiss : c ∈ bioMissingCodes tbl src := by
    have := List.mem_map_of_mem (fun m : ℤ × ℚ × Option LookupRow => m.1) hbf
    rw [hpc] at this
    exact this
  have hcmiss : c ∈ carbonMissingCodes tbl src := by
    have := List.mem_map_of_mem (fun m : ℤ × ℚ × Option LookupRow => m.1) hcf
    rw [hpc] at this
    exact this
  have hbne : bioMissingCodes tbl src ≠ [] := List.ne_nil_of_mem hbmiss
  have hcne : carbonMissingCodes tbl src ≠ [] := List.ne_nil_of_mem hcmiss
  refine ⟨⟨mkBioRow (bioTotal tbl src) (p.1, p.2, none),
      List.mem_map_of_mem _ hbm, hpc, rfl, rfl, rfl, rfl⟩, hbmiss, ?_,
    ⟨mkCarbonRow (carbonTotal tbl src) (p.1, p.2, none),
      List.mem_map_of_mem _ hcm, hpc, rfl, rfl, rfl, rfl, rfl⟩, hcmiss, ?_, ?_⟩
  · show (if (bioMissingCodes tbl src).isEmpty then ([] : List (List ℤ))
        else [bioMissingCodes tbl src]) = [bioMissingCodes tbl src]
    rw [if_neg]
    simp [List.isEmpty_iff, hbne]
  · show (if (carbonMissingCodes tbl src).isEmpty then ([] : List (List ℤ))
        else [carbonMissingCodes tbl src]) = [carbonMissingCodes tbl src]
    rw [if_neg]
    simp [List.isEmpty_iff, hcne]
  · intro r hr
    obtain ⟨m, hmm, hmk⟩ := List.mem_map.mp hr
    obtain ⟨q, hq, hqm⟩ := List.mem_filterMap.mp hmm
    obtain ⟨e, he, heq⟩ := Option.map_eq_some'.mp hqm
    subst heq
    subst hmk
    intro hgc
    have hq1 : q.1 = c := hgc
    rw [hq1, hnone] at he
    cases he

/-- C7 witness: on the fixture run, code 7 is in the aggregated input but
not in the lookup table; biocapacity and carbon keep and warn, aesthetic
drops. -/
theorem claim_C7_witness :
    (7 : ℤ) ∈ (aggregateAreas src0).map Prod.fst ∧
    lookupByCode tbl0 7 = none ∧
    ((∃ r ∈ (process_biocapacity_data tbl0 src0).rows, r.gridcode = 7 ∧
        r.solris_class = none ∧ r.biocapacity_conversion_factor = none ∧
        r.biocapacity_gha = none ∧ r.percentage_of_total = none) ∧
      (7 : ℤ) ∈ (process_biocapacity_data tbl0 src0).missing_codes ∧
      (process_biocapacity_data tbl0 src0).logged_warnings =
        [(process_biocapacity_data tbl0 src0).missing_codes] ∧
      (∃ r ∈ (process_carbon_sequestration tbl0 src0).rows, r.gridcode = 7 ∧
        r.solris_class = none ∧ r.agc_tc_ha = none ∧ r.bgc_tc_ha = none ∧
        r.soc_tc_ha = none ∧ r.deoc_tc_ha = none) ∧
      (7 : ℤ) ∈ (process_carbon_sequestration tbl0 src0).missing_codes ∧
      (process_carbon_sequestration tbl0 src0).logged_warnings =
        [(process_carbon_sequestration tbl0 src0).missing_codes] ∧
      (∀ r ∈ process_aesthetic_quality tbl0 src0, r.gridcode ≠ 7)) :=
  ⟨by decide, by decide, claim_C7 tbl0 src0 7 (by decide) (by decide)⟩

/-! ### Claim C9 -/

/-- C9: the Water calculator keeps every row whose code is absent from the
lookup table: the row survives with a null class name, per-hectare value 0
and `total_wf_value` 0, and the water calculator logs no warning — unlike
the Biocapacity calculator, which logs a missing-codes warning on the same
input. -/
theorem claim_C9 :
    ∀ (tbl : List LookupRow) (wf : List (String × ℚ)) (src : List (ℤ × ℚ)) (c : ℤ),
      c ∈ (aggregateAreas src).map Prod.fst → lookupByCode tbl c = none →
      (∃ r ∈ (process_water_filtration tbl wf src).rows, r.gridcode = c ∧
        r.solris_class = none ∧ r.wf_value_per_ha = 0 ∧ r.total_wf_value = 0) ∧
      (process_water_filtration tbl wf src).logged_warnings = [] ∧
      (process_biocapacity_data tbl src).logged_warnings ≠ [] := by
  intro tbl wf src c hc hnone
  obtain ⟨p, hp, hpc⟩ := List.mem_map.mp hc
  have h1 : lookupByCode tbl p.1 = none := by rw [hpc]; exact hnone
  have hwm : (p.1, p.2, (lookupByCode tbl p.1).map (fun e => e.solris_class)) ∈
      waterMerged tbl src := List.mem_map_of_mem _ hp
  rw [h1] at hwm
  have hbm : (p.1, p.2, lookupByCode tbl p.1) ∈ bioMerged tbl src :=
    List.mem_map_of_mem _ hp
  rw [h1] at hbm
  have hbf : (p.1, p.2, (none : Option LookupRow)) ∈
      (bioMerged tbl src).filter (fun m => m.2.2.isNone) :=
    List.mem_filter.mpr ⟨hbm, rfl⟩
  have hbmiss : c ∈ bioMissingCodes tbl src := by
    have := List.mem_map_of_mem (fun m : ℤ × ℚ × Option LookupRow => m.1) hbf
    rw [hpc] at this
    exact this
  have hbne : bioMissingCodes tbl src ≠ [] := List.ne_nil_of_mem hbmiss
  refine ⟨⟨mkWaterRow wf (waterTotal tbl wf src) (p.1, p.2, none),
      List.mem_map_of_mem _ hwm, hpc, rfl, rfl, ?_⟩, rfl, ?_⟩
  · show waterTotalValue wf (p.1, p.2, (none : Option String)) = 0
    simp [waterTotalValue, waterValue, wfLookupValue, roundTo_zero]
  · show (if (bioMissingCodes tbl src).isEmpty then ([] : List (List ℤ))
        else [bioMissingCodes tbl src]) ≠ []
    rw [if_neg]
    · simp
    · simp [List.isEmpty_iff, hbne]

/-- C9 witness: code 7 on the fixture run — the water result keeps it with
null class and zero values, water logs nothing, biocapacity warns. -/
theorem claim_C9_witness :
    (7 : ℤ) ∈ (aggregateAreas src0).map Prod.fst ∧
    lookupByCode tbl0 7 = none ∧
    ((∃ r ∈ (process_water_filtration tbl0 wf0 src0).rows, r.gridcode = 7 ∧
        r.solris_class = none ∧ r.wf_value_per_ha = 0 ∧ r.total_wf_value = 0) ∧
      (process_water_filtration tbl0 wf0 src0).logged_warnings = [] ∧
      (process_biocapacity_data tbl0 src0).logged_warnings ≠ []) :=
  ⟨by decide, by decide, claim_C9 tbl0 wf0 src0 7 (by decide) (by decide)⟩

/-! ### Claims C5 and C8: the cost projector -/

/-- A year present in the schedule has a dict price. -/
theorem sccGet_isSome_of_mem (sched : List (ℤ × ℚ)) (y : ℤ)
    (h : y ∈ sccKeys sched) : (sccGet sched y).isSome = true := by
  obtain ⟨pr, hpr, hfst⟩ := List.mem_map.mp h
  have hrev : pr ∈ sched.reverse := List.mem_reverse.mpr hpr
  have hfind : (sched.reverse.find? (fun p => p.1 == y)).isSome = true :=
    List.find?_isSome.mpr ⟨pr, hrev, by simp [hfst]⟩
  rw [sccGet]
  cases hp : sched.reverse.find? (fun p => p.1 == y) with
  | none => rw [hp] at hfind; simp at hfind
  | some v => simp

/-- The code's branchy per-year lookup agrees with the spec's description:
the price of the latest schedule year at or before the requested year. -/
theorem annualSccValue_eq_spec (sched : List (ℤ × ℚ)) (y : ℤ) :
    annualSccValue sched y = specLatestAtOrBeforePrice sched y := by
  rw [annualSccValue, specLatestAtOrBeforePrice]
  by_cases hc : (sccKeys sched).contains y
  · rw [if_pos hc]
    have hy : y ∈ sccKeys sched := by simpa using hc
    have hyf : y ∈ (sccKeys sched).filter (fun k => decide (k ≤ y)) :=
      List.mem_filter.mpr ⟨hy, by simp⟩
    cases hmk : maxKey ((sccKeys sched).filter (fun k => decide (k ≤ y))) with
    | none =>
        rw [(maxKey_eq_none_iff _).mp hmk] at hyf
        cases hyf
    | some m =>
        have hm_mem := maxKey_mem hmk
        have hmy : m ≤ y := by
          have := List.mem_filter.mp hm_mem
          simpa using this.2
        have hym : y ≤ m := le_maxKey hyf hmk
        have hmeq : m = y := le_antisymm hmy hym
        subst hmeq
        rfl
  · rw [if_neg hc]

/-- The per-year lookup is defined exactly when some schedule year is at or
before the requested year. -/
theorem annualSccValue_isSome_iff (sched : List (ℤ × ℚ)) (y : ℤ) :
    (annualSccValue sched y).isSome = true ↔ ∃ k ∈ sccKeys sched, k ≤ y := by
  rw [annualSccValue_eq_spec, specLatestAtOrBeforePrice]
  cases hmk : maxKey ((sccKeys sched).filter (fun k => decide (k ≤ y))) with
  | none =>
      have hnil := (maxKey_eq_none_iff _).mp hmk
      constructor
      · intro h
        simp at h
      · rintro ⟨k, hk, hky⟩
        have hkf : k ∈ (sccKeys sched).filter (fun j => decide (j ≤ y)) :=
          List.mem_filter.mpr ⟨hk, by simpa using hky⟩
        rw [hnil] at hkf
        cases hkf
  | some m =>
      have hm_mem := maxKey_mem hmk
      obtain ⟨hmk_mem, hmy⟩ := List.mem_filter.mp hm_mem
      constructor
      · intro _
        exact ⟨m, hmk_mem, by simpa using hmy⟩
      · intro _
        show (sccGet sched m).isSome = true
        exact sccGet_isSome_of_mem sched m hmk_mem

/-- When every requested year's lookup is defined, the projection loop
produces exactly one scaled, discounted value per year, in order. -/
theorem seriesFrom_eq_map (scaling rate : ℚ) (start : ℤ) (sched : List (ℤ × ℚ)) :
    ∀ ys : List ℤ, (∀ y ∈ ys, (annualSccValue sched y).isSome = true) →
    seriesFrom scaling rate start sched ys =
      some (ys.map (fun y =>
        (y, scaling * ((annualSccValue sched y).getD 0) /
            (1 + rate) ^ (y - start).toNat))) := by
  intro ys
  induction ys with
  | nil => intro _; rfl
  | cons y ys ih =>
      intro h
      have hy := h y (List.mem_cons_self y ys)
      obtain ⟨p, hp⟩ := Option.isSome_iff_exists.mp hy
      simp only [seriesFrom]
      rw [hp, ih (fun z hz => h z (List.mem_cons_of_mem y hz))]
      simp [hp]

/-- A single year with an undefined lookup aborts the whole series. -/
theorem seriesFrom_none (scaling rate : ℚ) (start : ℤ) (sched : List (ℤ × ℚ)) :
    ∀ (ys : List ℤ) (y : ℤ), y ∈ ys → annualSccValue sched y = none →
    seriesFrom scaling rate start sched ys = none := by
  intro ys
  induction ys with
  | nil => intro y h; cases h
  | cons a ys ih =>
      intro y hy hnone
      simp only [seriesFrom]
      rcases List.mem_cons.mp hy with rfl | hmem
      · rw [hnone]
      · cases ha : annualSccValue sched a with
        | none => rfl
        | some p => rw [ih y hmem hnone]

/-- C5: cost projection.  With scaling factor `total / 252`, the projected
series covers the inclusive year range in order, each value being the
scaling factor times the spec-side price (the price of the latest schedule
year at or before the year) discounted by `1 / (1 + rate)^(year − start)`;
the spec-side price is the exact year's price whenever the year is in the
schedule, and the fallback key is never later than the requested year and
dominates every schedule year at or before it. -/
theorem claim_C5 :
    (∀ (total : ℚ) (sched : List (ℤ × ℚ)) (start finish : ℤ) (rate : ℚ),
      (∀ y ∈ yearRange start finish, ∃ k ∈ sccKeys sched, k ≤ y) →
      plot_discounted_social_cost total sched start finish rate =
        some ((yearRange start finish).map (fun y =>
          (y, total / 252 * ((specLatestAtOrBeforePrice sched y).getD 0) /
              (1 + rate) ^ (y - start).toNat)))) ∧
    (∀ (sched : List (ℤ × ℚ)) (y : ℤ), y ∈ sccKeys sched →
      specLatestAtOrBeforePrice sched y = sccGet sched y) ∧
    (∀ (sched : List (ℤ × ℚ)) (y k : ℤ),
      maxKey ((sccKeys sched).filter (fun j => decide (j ≤ y))) = some k →
      k ≤ y ∧ k ∈ sccKeys sched ∧ ∀ j ∈ sccKeys sched, j ≤ y → j ≤ k) := by
  refine ⟨?_, ?_, ?_⟩
  · intro total sched start finish rate h
    rw [plot_discounted_social_cost]
    rw [seriesFrom_eq_map _ _ _ _ _
      (fun y hy => (annualSccValue_isSome_iff sched y).mpr (h y hy))]
    simp only [annualSccValue_eq_spec]
  · intro sched y hy
    have hyf : y ∈ (sccKeys sched).filter (fun k => decide (k ≤ y)) :=
      List.mem_filter.mpr ⟨hy, by simp⟩
    rw [specLatestAtOrBeforePrice]
    cases hmk : maxKey ((sccKeys sched).filter (fun k => decide (k ≤ y))) with
    | none =>
        rw [(maxKey_eq_none_iff _).mp hmk] at hyf
        cases hyf
    | some m =>
        have hm_mem := maxKey_mem hmk
        have hmy : m ≤ y := by
          have := List.mem_filter.mp hm_mem
          simpa using this.2
        have hym : y ≤ m := le_maxKey hyf hmk
        have hmeq : m = y := le_antisymm hmy hym
        subst hmeq
        rfl
  · intro sched y k hmk
    have hk_mem := maxKey_mem hmk
    obtain ⟨hkk, hky⟩ := List.mem_filter.mp hk_mem
    refine ⟨by simpa using hky, hkk, ?_⟩
    intro j hj hjy
    exact le_maxKey (List.mem_filter.mpr ⟨hj, by simpa using hjy⟩) hmk

/-- C5 witness: the fixture schedule (2021 and 2023) over the range
2021-2023 at rate 1: every year has a schedule year at or before it, and
the projection equals the spec-side series. -/
theorem claim_C5_witness :
    (∀ y ∈ yearRange 2021 2023, ∃ k ∈ sccKeys sched0, k ≤ y) ∧
    plot_discounted_social_cost 504 sched0 2021 2023 1 =
      some ((yearRange 2021 2023).map (fun y =>
        (y, 504 / 252 * ((specLatestAtOrBeforePrice sched0 y).getD 0) /
            (1 + 1) ^ (y - 2021).toNat))) ∧
    (2021 : ℤ) ∈ sccKeys sched0 ∧
    specLatestAtOrBeforePrice sched0 2021 = sccGet sched0 2021 :=
  ⟨by decide, claim_C5.1 504 sched0 2021 2023 1 (by decide), by decide,
   claim_C5.2.1 sched0 2021 (by decide)⟩

/-- C8: the fallback lookup is only defined when a schedule year at or
before the requested year exists; a request whose range contains a year
absent from the schedule with no schedule year at or before it makes the
projection abort (the `max` of an empty collection raises) instead of
producing a series. -/
theorem claim_C8 :
    (∀ (sched : List (ℤ × ℚ)) (y : ℤ),
      (annualSccValue sched y).isSome = true ↔ ∃ k ∈ sccKeys sched, k ≤ y) ∧
    (∀ (total : ℚ) (sched : List (ℤ × ℚ)) (start finish : ℤ) (rate : ℚ) (y : ℤ),
      y ∈ yearRange start finish → y ∉ sccKeys sched →
      (∀ k ∈ sccKeys sched, ¬ k ≤ y) →
      plot_discounted_social_cost total sched start finish rate = none) := by
  refine ⟨annualSccValue_isSome_iff, ?_⟩
  intro total sched start finish rate y hy _ hnok
  have hnone : annualSccValue sched y = none := by
    have hns : ¬ (annualSccValue sched y).isSome = true := by
      rw [annualSccValue_isSome_iff]
      rintro ⟨k, hk, hky⟩
      exact hnok k hk hky
    exact Option.not_isSome_iff_eq_none.mp hns
  rw [plot_discounted_social_cost]
  exact seriesFrom_none _ _ _ _ _ y hy hnone

/-- C8 witness: requesting 2019-2020 against the fixture schedule (earliest
year 2021) aborts — 2019 is absent and no schedule year is at or before
it — and the 2019 lookup is undefined. -/
theorem claim_C8_witness :
    (2019 : ℤ) ∈ yearRange 2019 2020 ∧
    (2019 : ℤ) ∉ sccKeys sched0 ∧
    (∀ k ∈ sccKeys sched0, ¬ k ≤ (2019 : ℤ)) ∧
    plot_discounted_social_cost 504 sched0 2019 2020 1 = none :=
  ⟨by decide, by decide, by decide,
   claim_C8.2 504 sched0 2019 2020 1 2019 (by decide) (by decide) (by decide)⟩

end CIB
